import Mathlib

/-!
Shallow embedding of `src/app.py` (a Flask webhook receiver that normalizes
GitHub push / pull_request events, stores them in MongoDB, and serves the
recent history).

Modelling conventions:
* JSON / Python payload values are `JVal` (null, booleans, integers, strings,
  arrays, objects).  JSON numbers are modelled as integers; no claim involves
  fractional numbers.
* Python attribute errors (calling `.get`, `.startswith`, `.replace` on a
  value that lacks the method) are modelled with `Except PyErr`.
* `dict.get(k, d)` returns the default only when the key is ABSENT; a key
  present with value `None` yields `None`.
* Python `str.replace(old, new)` replaces ALL non-overlapping occurrences,
  left to right; `replaceAllL` models that on character lists.
* `datetime` values are `DT`; the ambient clock (`datetime.utcnow()`) is an
  explicit `now : DT` parameter (one sampled instant per handler call), and
  `datetime.fromisoformat` (standard library) is an explicit parameter
  `fromiso : String → Option DT`, `none` modelling a ValueError.  `DT.aware`
  records whether the value carries a (UTC) timezone, which only affects
  `isoformat` serialization.
* Stored MongoDB documents are `StoredDoc`; a field that was never written is
  modelled as `JVal.nul` (both read back as `None` through `doc.get`).  The
  store-assigned `_id` is external and omitted.
-/

/-- A Python/JSON value as it occurs in webhook payloads and stored fields. -/
inductive JVal where
  | nul : JVal
  | bool : Bool → JVal
  | num : Int → JVal
  | str : String → JVal
  | arr : List JVal → JVal
  | obj : List (String × JVal) → JVal

/-- Python exception kinds that the embedded code can raise. -/
inductive PyErr where
  | attrError : PyErr
deriving DecidableEq, Repr

/-- A naive/UTC datetime value (`datetime` in the source).  `aware = true`
means the value carries tzinfo UTC (as produced by parsing a `+00:00`
offset); `utcnow()` produces naive values. -/
structure DT where
  year : Nat
  month : Nat
  day : Nat
  hour : Nat
  minute : Nat
  second : Nat
  aware : Bool
deriving DecidableEq, Repr

/-- Chronological sort key for a datetime (Mongo sorts datetimes by instant). -/
def DT.key (d : DT) : Nat :=
  ((((d.year * 13 + d.month) * 32 + d.day) * 24 + d.hour) * 60 + d.minute) * 61 + d.second

/-- Python truthiness of a value (`if v:` / `v or w`). -/
def JVal.truthy : JVal → Bool
  | .nul => false
  | .bool b => b
  | .num n => n != 0
  | .str s => !s.isEmpty
  | .arr xs => !xs.isEmpty
  | .obj fs => !fs.isEmpty

/-- Python `v or default` restricted to the `or {}` idiom of the source:
keeps `v` when truthy, else the supplied default. -/
def JVal.orElse (v d : JVal) : JVal := if v.truthy then v else d

/-- Python `v == "s"` for a string literal: true exactly when `v` is that
very string (comparison with a non-string is `False`, never an error). -/
def JVal.isStr (v : JVal) (s : String) : Bool :=
  match v with
  | .str t => t == s
  | _ => false

/-- First value bound to key `k` in an association list, else the default
(Python `dict.get(k, d)` on the underlying field list). -/
def getD (fs : List (String × JVal)) (k : String) (d : JVal) : JVal :=
  match fs.lookup k with
  | some v => v
  | none => d

/-- Python `v.get(k, d)`: succeeds on dicts, raises AttributeError otherwise. -/
def pyGet (v : JVal) (k : String) (d : JVal) : Except PyErr JVal :=
  match v with
  | .obj fs => .ok (getD fs k d)
  | _ => .error .attrError

/-- Total lookup used in statements: `dict.get` on objects, default otherwise. -/
def lookupD (v : JVal) (k : String) (d : JVal) : JVal :=
  match v with
  | .obj fs => getD fs k d
  | _ => d

/-- Does the object `v` have the key `k` at all (present even if null)? -/
def hasKey (v : JVal) (k : String) : Bool :=
  match v with
  | .obj fs => (fs.lookup k).isSome
  | _ => false

/-- Strips `p` from the front of `s`: the remainder when `p` is a leading run
of `s`, else `none`. -/
def stripSub : List Char → List Char → Option (List Char)
  | [], s => some s
  | _ :: _, [] => none
  | a :: p, b :: s => if a = b then stripSub p s else none

/-- Replace all non-overlapping occurrences of a non-empty pattern `p` (left
to right) by `r`, as Python `str.replace` does.  Structural recursion on a
fuel argument (any fuel at least the length of the subject is exact). -/
def replaceGo (p r : List Char) : Nat → List Char → List Char
  | _, [] => []
  | 0, s => s
  | fuel + 1, c :: cs =>
    match stripSub p (c :: cs), p with
    | some rest, _ :: _ => r ++ replaceGo p r fuel rest
    | _, _ => c :: replaceGo p r fuel cs

/-- Python `s.replace(p, r)` on strings (non-empty pattern). -/
def pyReplace (s p r : String) : String :=
  List.asString (replaceGo p.data r.data s.data.length s.data)

/-- Python `s.startswith(p)` on strings. -/
def pyStarts (s p : String) : Bool :=
  (stripSub p.data s.data).isSome

/-- Does pattern `p` occur as a contiguous run anywhere in `s`? -/
def occursIn (p : List Char) : List Char → Bool
  | [] => p.isEmpty
  | c :: cs => (stripSub p (c :: cs)).isSome || occursIn p cs

/-- Python `str(v)` (the display form used at line 163 of the source);
`reprJ` is Python `repr` for values nested inside containers. -/
def pyStr : JVal → String :=
  fun v =>
    match v with
    | .str s => s
    | v => reprJ v
where
  /-- Python `repr` of a value. -/
  reprJ : JVal → String
    | .nul => "None"
    | .bool true => "True"
    | .bool false => "False"
    | .num n => toString n
    | .str s => "'" ++ s ++ "'"
    | .arr xs => "[" ++ String.intercalate ", " (reprList xs) ++ "]"
    | .obj fs => "\x7b" ++ String.intercalate ", " (reprFields fs) ++ "\x7d"
  /-- Renders each element of a list. -/
  reprList : List JVal → List String
    | [] => []
    | v :: vs => reprJ v :: reprList vs
  /-- Renders each key/value pair of a dict. -/
  reprFields : List (String × JVal) → List String
    | [] => []
    | (k, v) :: fs => ("'" ++ k ++ "': " ++ reprJ v) :: reprFields fs

/-- Left-pads a numeral to two digits (Python `%d` / `{n:02d}`). -/
def pad2 (n : Nat) : String :=
  if n < 10 then "0" ++ toString n else toString n

/-- Full month name as Python `%B` renders it (months 1..12). -/
def monthName : Nat → String
  | 1 => "January" | 2 => "February" | 3 => "March" | 4 => "April"
  | 5 => "May" | 6 => "June" | 7 => "July" | 8 => "August"
  | 9 => "September" | 10 => "October" | 11 => "November" | 12 => "December"
  | _ => ""

/-- Python `datetime.isoformat()` for whole-second values: naive values carry
no offset, aware (UTC) values end in `+00:00`. -/
def dtIso (d : DT) : String :=
  toString d.year ++ "-" ++ pad2 d.month ++ "-" ++ pad2 d.day ++ "T"
    ++ pad2 d.hour ++ ":" ++ pad2 d.minute ++ ":" ++ pad2 d.second
    ++ (if d.aware then "+00:00" else "")

/-!  `ref_to_branch` — src/app.py lines 26-30. -/

/-- Lines 26-30: convert a git ref to a branch name.  Falsy input gives
"unknown"; a string starting with `refs/heads/` goes through Python
`str.replace` (which removes every occurrence); a truthy non-string raises
AttributeError at `.startswith`. -/
def ref_to_branch (ref : JVal) : Except PyErr JVal :=
  if ref.truthy then
    match ref with
    | .str s =>
      .ok (.str (if pyStarts s "refs/heads/" then pyReplace s "refs/heads/" "" else s))
    | _ => .error .attrError
  else
    .ok (.str "unknown")

/-!  `parse_github_timestamp` — src/app.py lines 45-54. -/

/-- Lines 45-54: falsy input falls back to `utcnow()`; a string is handed to
`fromisoformat` after `replace("Z", "+00:00")`, with ValueError/TypeError
falling back to `utcnow()`; a truthy non-string raises AttributeError at
`.replace` (that exception class is not caught by the `except` clause). -/
def parse_github_timestamp (fromiso : String → Option DT) (now : DT) (v : JVal) :
    Except PyErr DT :=
  if v.truthy then
    match v with
    | .str s => .ok ((fromiso (pyReplace s "Z" "+00:00")).getD now)
    | _ => .error .attrError
  else
    .ok now

/-!  `format_timestamp` — src/app.py lines 57-72. -/

/-- Lines 62-66: the ordinal suffix for a day of month.  Note Python's
`["st","nd","rd"][day % 10 - 1]` hits index `-1` (wrapping to `"rd"`) when
the last digit is 0, though no day in 1..31 reaches that case. -/
def ordinal_suffix (day : Nat) : String :=
  if (4 ≤ day ∧ day ≤ 20) ∨ (24 ≤ day ∧ day ≤ 30) then "th"
  else if day % 10 ≤ 3 then
    match day % 10 with
    | 1 => "st"
    | 2 => "nd"
    | 3 => "rd"
    | _ => "rd"
  else "th"

/-- Lines 61-72 (after the isinstance guard): `%d` zero-pads the day and
`%B %Y` render month name and year; 12-hour clock with `{minute:02d}`. -/
def format_dt (d : DT) : String :=
  let dateStr := pad2 d.day ++ ordinal_suffix d.day ++ " " ++ monthName d.month
    ++ " " ++ toString d.year
  let hour12 := if d.hour % 12 = 0 then 12 else d.hour % 12
  let ampm := if d.hour < 12 then "AM" else "PM"
  dateStr ++ " - " ++ toString hour12 ++ ":" ++ pad2 d.minute ++ " " ++ ampm ++ " UTC"

/-- A value that is either a datetime object or a plain JSON-ish value, as a
stored `timestamp` field can hold. -/
inductive StoredVal where
  | dt : DT → StoredVal
  | j : JVal → StoredVal

/-- Lines 57-72: the isinstance guard substitutes `utcnow()` for a
non-datetime argument, then the body formats. -/
def format_timestamp (now : DT) (v : StoredVal) : String :=
  match v with
  | .dt d => format_dt d
  | .j _ => format_dt now

/-!  `handle_push` — src/app.py lines 77-91. -/

/-- The normalized record a handler produces (the dict literals at lines
83-91, 108-116, 126-134).  `from_branch` is `JVal.nul` for push (Python
`None`). -/
structure EventDoc where
  action : String
  author : JVal
  repo : JVal
  from_branch : JVal
  to_branch : JVal
  timestamp : DT
  created_at : DT

/-- Lines 77-91: normalize a push payload.  `repository`/`pusher` must be
dicts when present (a present null or non-dict raises AttributeError at
`.get`), `ref` must be a string when present (raises at `.replace`), and the
branch is the raw `replace("refs/heads/", "")` with no resolver fallback. -/
def handle_push (now : DT) (payload : JVal) : Except PyErr EventDoc := do
  let repoObj ← pyGet payload "repository" (.obj [])
  let repo ← pyGet repoObj "name" (.str "unknown-repo")
  let pusherObj ← pyGet payload "pusher" (.obj [])
  let pusher ← pyGet pusherObj "name" (.str "unknown-user")
  let ref ← pyGet payload "ref" (.str "")
  let branch ←
    match ref with
    | .str s => Except.ok (pyReplace s "refs/heads/" "")
    | _ => Except.error PyErr.attrError
  return { action := "push", author := pusher, repo := repo, from_branch := .nul,
           to_branch := .str branch, timestamp := now, created_at := now }

/-!  `handle_pull_request` — src/app.py lines 94-135. -/

/-- Lines 94-135: normalize a pull_request payload.  `closed` + truthy
`merged` yields a merge record; `opened`/`synchronize` yields a pull_request
record; anything else yields `none` (the Ignore outcome).  The `a or b or c`
author chains are lazy, so the `sender` lookup only runs when the first login
is falsy. -/
def handle_pull_request (fromiso : String → Option DT) (now : DT) (payload : JVal) :
    Except PyErr (Option EventDoc) := do
  let pr0 ← pyGet payload "pull_request" .nul
  let pr := pr0.orElse (.obj [])
  let action ← pyGet payload "action" .nul
  let merged ← pyGet pr "merged" (.bool false)
  if action.isStr "closed" && merged.truthy then
    let base ← pyGet pr "base" (.obj [])
    let head ← pyGet pr "head" (.obj [])
    let baseRef ← pyGet base "ref" (.str "")
    let headRef ← pyGet head "ref" (.str "")
    let toBranch ← ref_to_branch baseRef
    let fromBranch ← ref_to_branch headRef
    let mb0 ← pyGet pr "merged_by" .nul
    let mbLogin ← pyGet (mb0.orElse (.obj [])) "login" .nul
    let merger ←
      if mbLogin.truthy then pure mbLogin
      else do
        let s0 ← pyGet payload "sender" .nul
        let sndLogin ← pyGet (s0.orElse (.obj [])) "login" .nul
        pure (if sndLogin.truthy then sndLogin else .str "Unknown")
    let mergedAt ← pyGet pr "merged_at" .nul
    let ts ← if mergedAt.truthy then parse_github_timestamp fromiso now mergedAt
             else pure now
    let repo0 ← pyGet payload "repository" .nul
    let repo ← pyGet (repo0.orElse (.obj [])) "full_name" (.str "")
    return some { action := "merge", author := merger, repo := repo,
                  from_branch := fromBranch, to_branch := toBranch,
                  timestamp := ts, created_at := now }
  else if action.isStr "opened" || action.isStr "synchronize" then
    let base ← pyGet pr "base" (.obj [])
    let head ← pyGet pr "head" (.obj [])
    let baseRef ← pyGet base "ref" (.str "")
    let headRef ← pyGet head "ref" (.str "")
    let toBranch ← ref_to_branch baseRef
    let fromBranch ← ref_to_branch headRef
    let usr0 ← pyGet pr "user" .nul
    let usrLogin ← pyGet (usr0.orElse (.obj [])) "login" .nul
    let author ←
      if usrLogin.truthy then pure usrLogin
      else do
        let s0 ← pyGet payload "sender" .nul
        let sndLogin ← pyGet (s0.orElse (.obj [])) "login" .nul
        pure (if sndLogin.truthy then sndLogin else .str "Unknown")
    let tsStr ← pyGet pr "created_at" .nul
    let ts ← parse_github_timestamp fromiso now tsStr
    let repo0 ← pyGet payload "repository" .nul
    let repo ← pyGet (repo0.orElse (.obj [])) "full_name" (.str "")
    return some { action := "pull_request", author := author, repo := repo,
                  from_branch := fromBranch, to_branch := toBranch,
                  timestamp := ts, created_at := now }
  else
    return none

/-!  Store model, `debug_insert`, `get_events`, `webhook`. -/

/-- A document as it sits in the `events` collection.  Fields this system
never wrote are `JVal.nul` (read back as `None`); `created_at` is kept as a
datetime, the key the query endpoint sorts on. -/
structure StoredDoc where
  action : JVal
  author : JVal
  to_branch : JVal
  from_branch : JVal
  repo : JVal
  timestamp : StoredVal
  created_at : DT

/-- How `events_collection.insert_one` stores a handler record. -/
def EventDoc.toStored (e : EventDoc) : StoredDoc :=
  { action := .str e.action, author := e.author, to_branch := e.to_branch,
    from_branch := e.from_branch, repo := e.repo,
    timestamp := .dt e.timestamp, created_at := e.created_at }

/-- Lines 32-41: the `/debug-insert` route inserts a fixed synthetic document
(action `"debug"`, no branch or timestamp fields). -/
def debug_insert (now : DT) : StoredDoc :=
  { action := .str "debug", author := .str "ankith", to_branch := .nul,
    from_branch := .nul, repo := .str "manual-test",
    timestamp := .j .nul, created_at := now }

/-- The comparison `find().sort("created_at", -1)` uses: newest first. -/
def createdDesc (a b : StoredDoc) : Bool :=
  b.created_at.key ≤ a.created_at.key

/-- Line 147: `find().sort("created_at", -1).limit(100)` modelled on a list
snapshot of the collection. -/
def listRecent (store : List StoredDoc) : List StoredDoc :=
  (store.mergeSort createdDesc).take 100

/-- The display-oriented projection built at lines 150-167 (the external
store-assigned `_id` string is omitted). -/
structure OutDoc where
  action : JVal
  author : JVal
  to_branch : JVal
  from_branch : JVal
  repo : JVal
  timestamp : JVal
  timestamp_formatted : String
  created_at : JVal

/-- Lines 150-167: reshape one stored document.  A datetime timestamp is
formatted and serialized (naive values get a trailing `"Z"`); a non-datetime
timestamp is `str(ts)` when truthy and `""` otherwise. -/
def reshape (now : DT) (d : StoredDoc) : OutDoc :=
  let tsPair : String × JVal :=
    match d.timestamp with
    | .dt t => (format_timestamp now (.dt t),
                .str (if t.aware then dtIso t else dtIso t ++ "Z"))
    | .j v => (if v.truthy then pyStr v else "", v)
  { action := d.action, author := d.author, to_branch := d.to_branch,
    from_branch := d.from_branch, repo := d.repo,
    timestamp := tsPair.2, timestamp_formatted := tsPair.1,
    created_at := .str (if d.created_at.aware then dtIso d.created_at
                        else dtIso d.created_at ++ "Z") }

/-- Lines 144-168: the `/api/events` query endpoint. -/
def get_events (now : DT) (store : List StoredDoc) : List OutDoc :=
  (listRecent store).map (reshape now)

/-- What the `/webhook` route does with a request. -/
inductive WebhookOut where
  | pong : WebhookOut
  | stored : EventDoc → WebhookOut
  | ignored : WebhookOut

/-- Lines 170-191: the ingestion route.  `body = none` models a non-JSON
request body (`get_json(..., silent=True)` returning `None`); a falsy JSON
body is also replaced by `{}` by the `or {}` at line 173. -/
def webhook (fromiso : String → Option DT) (now : DT) (event : String)
    (body : Option JVal) : Except PyErr WebhookOut := do
  let payload := (body.getD .nul).orElse (.obj [])
  if event = "push" then
    let doc ← handle_push now payload
    return .stored doc
  else if event = "pull_request" then
    let doc ← handle_pull_request fromiso now payload
    match doc with
    | some d => return .stored d
    | none => return .ignored
  else if event = "ping" then
    return .pong
  else
    return .ignored

/-!  Shape predicates and explicit result functions used by the theorems. -/

/-- Is the value a Python dict? -/
def JVal.objish : JVal → Bool
  | .obj _ => true
  | _ => false

/-- Is the value a Python string? -/
def JVal.strish : JVal → Bool
  | .str _ => true
  | _ => false

/-- The string carried by a string value (irrelevant default otherwise). -/
def JVal.strOf : JVal → String
  | .str s => s
  | _ => ""

/-- Either falsy or a string: exactly the values `ref_to_branch` and
`parse_github_timestamp` accept without raising. -/
def JVal.strOrFalsy (v : JVal) : Bool := !v.truthy || v.strish

/-- Either falsy or a dict: exactly the values the `x or {}` idiom turns into
a dict. -/
def JVal.objOrFalsy (v : JVal) : Bool := !v.truthy || v.objish

/-- A push payload whose consulted fields have the shapes `handle_push`
dereferences without raising: a dict whose `repository` and `pusher` values
(when the keys are present) are dicts and whose `ref` (when present) is a
string. -/
def pushShaped (p : JVal) : Bool :=
  p.objish
    && (lookupD p "repository" (.obj [])).objish
    && (lookupD p "pusher" (.obj [])).objish
    && (lookupD p "ref" (.str "")).strish

/-- A pull_request payload whose consulted fields have the shapes
`handle_pull_request` dereferences without raising. -/
def prShaped (p : JVal) : Bool :=
  let pr := (lookupD p "pull_request" .nul).orElse (.obj [])
  let base := lookupD pr "base" (.obj [])
  let head := lookupD pr "head" (.obj [])
  p.objish && pr.objish && base.objish && head.objish
    && (lookupD base "ref" (.str "")).strOrFalsy
    && (lookupD head "ref" (.str "")).strOrFalsy
    && (lookupD pr "merged_by" .nul).objOrFalsy
    && (lookupD pr "user" .nul).objOrFalsy
    && (lookupD p "sender" .nul).objOrFalsy
    && (lookupD pr "merged_at" .nul).strOrFalsy
    && (lookupD pr "created_at" .nul).strOrFalsy
    && (lookupD p "repository" .nul).objOrFalsy

/-- What `ref_to_branch` returns on falsy-or-string input. -/
def branchOf (v : JVal) : JVal :=
  if v.truthy then
    .str (if pyStarts v.strOf "refs/heads/" then pyReplace v.strOf "refs/heads/" ""
          else v.strOf)
  else .str "unknown"

/-- What `parse_github_timestamp` returns on falsy-or-string input. -/
def parseTot (fromiso : String → Option DT) (now : DT) (v : JVal) : DT :=
  if v.truthy then (fromiso (pyReplace v.strOf "Z" "+00:00")).getD now else now

/-- The author chain of `handle_pull_request` (`k` is `"merged_by"` for the
merge branch and `"user"` for the pull_request branch). -/
def authorOf (payload pr : JVal) (k : String) : JVal :=
  let l1 := lookupD ((lookupD pr k .nul).orElse (.obj [])) "login" .nul
  if l1.truthy then l1
  else
    let l2 := lookupD ((lookupD payload "sender" .nul).orElse (.obj [])) "login" .nul
    if l2.truthy then l2 else .str "Unknown"

/-- The record `handle_push` builds on a well-shaped payload. -/
def pushResult (now : DT) (p : JVal) : EventDoc :=
  { action := "push",
    author := lookupD (lookupD p "pusher" (.obj [])) "name" (.str "unknown-user"),
    repo := lookupD (lookupD p "repository" (.obj [])) "name" (.str "unknown-repo"),
    from_branch := .nul,
    to_branch := .str (pyReplace (lookupD p "ref" (.str "")).strOf "refs/heads/" ""),
    timestamp := now, created_at := now }

/-- The dict `handle_pull_request` binds to `pr`: the payload's
`pull_request` value, or an empty dict when that is falsy. -/
def prOf (p : JVal) : JVal := (lookupD p "pull_request" .nul).orElse (.obj [])

/-- The payload's `action` value. -/
def actionOf (p : JVal) : JVal := lookupD p "action" .nul

/-- The payload's `pull_request.merged` value (default `False`). -/
def mergedOf (p : JVal) : JVal := lookupD (prOf p) "merged" (.bool false)

/-- The payload's `pull_request.base.ref` value as the handler reads it. -/
def baseRefOf (p : JVal) : JVal :=
  lookupD (lookupD (prOf p) "base" (.obj [])) "ref" (.str "")

/-- The payload's `pull_request.head.ref` value as the handler reads it. -/
def headRefOf (p : JVal) : JVal :=
  lookupD (lookupD (prOf p) "head" (.obj [])) "ref" (.str "")

/-- The outcome `handle_pull_request` produces on a well-shaped payload. -/
def prResult (fromiso : String → Option DT) (now : DT) (p : JVal) : Option EventDoc :=
  let repo := lookupD ((lookupD p "repository" .nul).orElse (.obj [])) "full_name" (.str "")
  if (actionOf p).isStr "closed" && (mergedOf p).truthy then
    let mergedAt := lookupD (prOf p) "merged_at" .nul
    some { action := "merge", author := authorOf p (prOf p) "merged_by", repo := repo,
           from_branch := branchOf (headRefOf p), to_branch := branchOf (baseRefOf p),
           timestamp := if mergedAt.truthy then parseTot fromiso now mergedAt else now,
           created_at := now }
  else if (actionOf p).isStr "opened" || (actionOf p).isStr "synchronize" then
    some { action := "pull_request", author := authorOf p (prOf p) "user", repo := repo,
           from_branch := branchOf (headRefOf p), to_branch := branchOf (baseRefOf p),
           timestamp := parseTot fromiso now (lookupD (prOf p) "created_at" .nul),
           created_at := now }
  else none

/-!  Helper lemmas. -/

lemma objish_iff {v : JVal} : v.objish = true ↔ ∃ fs, v = .obj fs := by
  cases v <;> simp [JVal.objish]

lemma strish_iff {v : JVal} : v.strish = true ↔ ∃ s, v = .str s := by
  cases v <;> simp [JVal.strish]

lemma pyGet_obj {fs : List (String × JVal)} {k : String} {d : JVal} :
    pyGet (.obj fs) k d = .ok (getD fs k d) := rfl

lemma lookupD_obj {fs : List (String × JVal)} {k : String} {d : JVal} :
    lookupD (.obj fs) k d = getD fs k d := rfl

lemma handle_push_shaped {now : DT} {p : JVal} (h : pushShaped p = true) :
    handle_push now p = .ok (pushResult now p) := by
  simp only [pushShaped, Bool.and_eq_true] at h
  obtain ⟨⟨⟨hp, hrep⟩, hpush⟩, href⟩ := h
  obtain ⟨fs, rfl⟩ := objish_iff.mp hp
  obtain ⟨rfs, hr⟩ := objish_iff.mp hrep
  obtain ⟨pfs, hpu⟩ := objish_iff.mp hpush
  obtain ⟨s, hs⟩ := strish_iff.mp href
  simp only [lookupD_obj] at hr hpu hs
  simp [handle_push, pushResult, pyGet_obj, lookupD_obj, hr, hpu, hs,
    bind, Except.bind, pure, Except.pure, JVal.strOf]

lemma objOrFalsy_orElse {v : JVal} (h : v.objOrFalsy = true) :
    ∃ fs, v.orElse (.obj []) = .obj fs := by
  by_cases ht : v.truthy
  · simp [JVal.objOrFalsy, ht] at h
    obtain ⟨fs, rfl⟩ := objish_iff.mp h
    refine ⟨fs, ?_⟩
    simp [JVal.orElse, ht]
  · exact ⟨[], by simp [JVal.orElse, ht]⟩

lemma ref_to_branch_ok {v : JVal} (h : v.strOrFalsy = true) :
    ref_to_branch v = .ok (branchOf v) := by
  by_cases ht : v.truthy
  · simp [JVal.strOrFalsy, ht] at h
    obtain ⟨s, rfl⟩ := strish_iff.mp h
    simp [ref_to_branch, branchOf, ht, JVal.strOf]
  · simp [ref_to_branch, branchOf, ht]

lemma parse_ok {fromiso : String → Option DT} {now : DT} {v : JVal}
    (h : v.strOrFalsy = true) :
    parse_github_timestamp fromiso now v = .ok (parseTot fromiso now v) := by
  by_cases ht : v.truthy
  · simp [JVal.strOrFalsy, ht] at h
    obtain ⟨s, rfl⟩ := strish_iff.mp h
    simp [parse_github_timestamp, parseTot, ht, JVal.strOf]
  · simp [parse_github_timestamp, parseTot, ht]

lemma handle_pr_shaped {fromiso : String → Option DT} {now : DT} {p : JVal}
    (h : prShaped p = true) :
    handle_pull_request fromiso now p = .ok (prResult fromiso now p) := by
  simp only [prShaped, Bool.and_eq_true] at h
  obtain ⟨⟨⟨⟨⟨⟨⟨⟨⟨⟨⟨hp, hpr⟩, hbase⟩, hhead⟩, hbref⟩, hhref⟩, hmb⟩, husr⟩, hsnd⟩, hmat⟩, hcat⟩, hrepo⟩ := h
  obtain ⟨fs, rfl⟩ := objish_iff.mp hp
  simp only [lookupD_obj] at hpr hbase hhead hbref hhref hmb husr hsnd hmat hcat hrepo
  obtain ⟨prfs, hprfs⟩ := objish_iff.mp hpr
  simp only [hprfs, lookupD_obj] at hbase hhead hbref hhref hmb husr hmat hcat
  obtain ⟨bfs, hb⟩ := objish_iff.mp hbase
  obtain ⟨hfs, hh⟩ := objish_iff.mp hhead
  simp only [hb, hh, lookupD_obj] at hbref hhref
  obtain ⟨sfs, hsn⟩ := objOrFalsy_orElse hsnd
  obtain ⟨mfs, hm⟩ := objOrFalsy_orElse hmb
  obtain ⟨ufs, hu⟩ := objOrFalsy_orElse husr
  obtain ⟨rfs, hrf⟩ := objOrFalsy_orElse hrepo
  simp only [handle_pull_request, prResult, prOf, actionOf, mergedOf, baseRefOf,
    headRefOf, pyGet_obj, lookupD_obj, hprfs, hb, hh,
    hm, hu, hsn, hrf, bind, Except.bind, pure, Except.pure,
    ref_to_branch_ok hbref, ref_to_branch_ok hhref, parse_ok hmat, parse_ok hcat,
    authorOf]
  split <;> (repeat' split) <;>
    simp [pyGet_obj, hsn, getD, pure, Except.pure, bind, Except.bind]

lemma stripSub_append : ∀ p t : List Char, stripSub p (p ++ t) = some t := by
  intro p t
  induction p with
  | nil => rfl
  | cons a p ih => simp [stripSub, ih]

lemma stripSub_eq_some : ∀ {p s rest : List Char}, stripSub p s = some rest → s = p ++ rest := by
  intro p
  induction p with
  | nil => intro s rest h; simp [stripSub] at h; simp [h]
  | cons a p ih =>
    intro s rest h
    cases s with
    | nil => simp [stripSub] at h
    | cons b s =>
      simp only [stripSub] at h
      split at h
      · next hab => simp [hab, ih h]
      · exact absurd h (by simp)

lemma replaceGo_no_occurrence {p r : List Char} :
    ∀ {fuel : Nat} {s : List Char}, occursIn p s = false → s.length ≤ fuel →
      replaceGo p r fuel s = s := by
  intro fuel
  induction fuel with
  | zero =>
    intro s _ hlen
    have : s = [] := by cases s <;> simp_all
    simp [this, replaceGo]
  | succ fuel ih =>
    intro s hocc hlen
    cases s with
    | nil => rfl
    | cons c cs =>
      simp only [occursIn, Bool.or_eq_false_iff] at hocc
      obtain ⟨h1, h2⟩ := hocc
      have hnone : stripSub p (c :: cs) = none := by
        cases hss : stripSub p (c :: cs) <;> simp_all
      simp only [replaceGo, hnone]
      have : replaceGo p r fuel cs = cs :=
        ih h2 (by simpa using Nat.lt_succ_iff.mp (Nat.lt_of_lt_of_le (by simp) hlen))
      cases p <;> simp [this]

lemma replaceGo_strip_head {p r t : List Char} {fuel : Nat} (hp : p ≠ [])
    (hocc : occursIn p t = false) (hlen : (p ++ t).length ≤ fuel) :
    replaceGo p r fuel (p ++ t) = r ++ t := by
  cases fuel with
  | zero =>
    exfalso
    cases p with
    | nil => exact hp rfl
    | cons a p => simp at hlen
  | succ fuel =>
    cases p with
    | nil => exact absurd rfl hp
    | cons a p =>
      have hstrip := stripSub_append (a :: p) t
      simp only [List.cons_append] at hstrip
      simp only [List.cons_append, replaceGo, List.append_eq, hstrip]
      have ht : replaceGo (a :: p) r fuel t = t := by
        apply replaceGo_no_occurrence hocc
        simp only [List.length_append, List.length_cons] at hlen
        omega
      simp [ht]

lemma str_truthy {s : String} (h : s ≠ "") : (JVal.str s).truthy = true := by
  simp only [JVal.truthy, Bool.not_eq_eq_eq_not, Bool.not_true]
  rw [Bool.eq_false_iff]
  intro hh
  rw [String.isEmpty_iff] at hh
  exact h hh

lemma push_action_of_ok {n : DT} {p : JVal} {d : EventDoc}
    (h : handle_push n p = .ok d) : d.action = "push" := by
  simp only [handle_push, bind, Except.bind] at h
  repeat' split at h
  all_goals simp_all [pure, Except.pure]
  all_goals (cases h; rfl)

lemma pr_action_of_ok {fi : String → Option DT} {n : DT} {p : JVal} {d : EventDoc}
    (h : handle_pull_request fi n p = .ok (some d)) :
    d.action = "merge" ∨ d.action = "pull_request" := by
  simp only [handle_pull_request, bind, Except.bind] at h
  repeat' split at h
  all_goals simp_all [pure, Except.pure]
  all_goals first
    | (cases h; exact Or.inl rfl)
    | (cases h; exact Or.inr rfl)

lemma webhook_action_of_stored {fi : String → Option DT} {n : DT} {ev : String}
    {body : Option JVal} {d : EventDoc}
    (h : webhook fi n ev body = .ok (.stored d)) :
    d.action = "push" ∨ d.action = "merge" ∨ d.action = "pull_request" := by
  simp only [webhook, bind, Except.bind] at h
  repeat' split at h
  all_goals simp_all [pure, Except.pure]
  all_goals try subst h
  all_goals first
    | exact Or.inl (push_action_of_ok (by assumption))
    | exact Or.inr (pr_action_of_ok (by assumption))

lemma resolve_strips_single_occurrence {t : String}
    (hocc : occursIn "refs/heads/".data t.data = false) :
    ref_to_branch (.str ("refs/heads/" ++ t)) = .ok (.str t) := by
  have hne : ("refs/heads/" ++ t) ≠ "" := by
    intro h
    have := congrArg String.data h
    simp at this
  have hdata : ("refs/heads/" ++ t).data = "refs/heads/".data ++ t.data := rfl
  have hstarts : pyStarts ("refs/heads/" ++ t) "refs/heads/" = true := by
    unfold pyStarts
    rw [hdata, stripSub_append]
    rfl
  have hrepl : pyReplace ("refs/heads/" ++ t) "refs/heads/" "" = t := by
    unfold pyReplace
    rw [hdata]
    rw [replaceGo_strip_head (by decide) hocc (by simp)]
    show List.asString t.data = t
    cases t
    rfl
  simp [ref_to_branch, str_truthy hne, hstarts, hrepl]

lemma resolve_keeps_other {s : String} (hne : s ≠ "")
    (hst : pyStarts s "refs/heads/" = false) :
    ref_to_branch (.str s) = .ok (.str s) := by
  simp [ref_to_branch, str_truthy hne, hst]

lemma isStr_iff {v : JVal} {s : String} : v.isStr s = true ↔ v = .str s := by
  cases v <;> simp [JVal.isStr]

lemma authorOf_truthy {p pr : JVal} {k : String} : (authorOf p pr k).truthy = true := by
  simp only [authorOf]
  split
  · assumption
  · split
    · assumption
    · decide

lemma branchOf_is_str {v : JVal} : ∃ s, branchOf v = .str s := by
  unfold branchOf
  split
  · exact ⟨_, rfl⟩
  · exact ⟨_, rfl⟩

lemma branchOf_falsy {v : JVal} (h : v.truthy = false) : branchOf v = .str "unknown" := by
  simp [branchOf, h]

lemma classified {fromiso : String → Option DT} {now : DT} {p : JVal}
    (h : prShaped p = true) :
    ((actionOf p = .str "closed" ∧ (mergedOf p).truthy = true) ↔
       ∃ d, handle_pull_request fromiso now p = .ok (some d) ∧ d.action = "merge") ∧
    ((actionOf p = .str "opened" ∨ actionOf p = .str "synchronize") ↔
       ∃ d, handle_pull_request fromiso now p = .ok (some d) ∧ d.action = "pull_request") ∧
    ((¬(actionOf p = .str "closed" ∧ (mergedOf p).truthy = true) ∧
      ¬(actionOf p = .str "opened" ∨ actionOf p = .str "synchronize")) ↔
       handle_pull_request fromiso now p = .ok none) := by
  rw [handle_pr_shaped h]
  unfold prResult
  by_cases hc1 : ((actionOf p).isStr "closed" && (mergedOf p).truthy) = true
  · have hc1' := hc1
    simp only [Bool.and_eq_true, isStr_iff] at hc1'
    obtain ⟨ha, hm⟩ := hc1'
    simp +decide [ha, hm, JVal.isStr]
  · by_cases hc2 : ((actionOf p).isStr "opened" || (actionOf p).isStr "synchronize") = true
    · have hc2' := hc2
      simp only [Bool.or_eq_true, isStr_iff] at hc2'
      rw [Bool.not_eq_true] at hc1
      have hcl : ¬(actionOf p = .str "closed" ∧ (mergedOf p).truthy = true) := by
        intro hx
        rcases hc2' with hh | hh <;> rw [hh] at hx <;> simp at hx
      rcases hc2' with hh | hh <;> simp +decide [hc1, hc2, hh, hcl, JVal.isStr]
    · rw [Bool.not_eq_true] at hc1 hc2
      have hcl : ¬(actionOf p = .str "closed" ∧ (mergedOf p).truthy = true) := by
        intro hx
        rw [hx.1] at hc1
        simp +decide [JVal.isStr, hx.2] at hc1
      have hop : ¬(actionOf p = .str "opened" ∨ actionOf p = .str "synchronize") := by
        intro hx
        rcases hx with hh | hh <;> rw [hh] at hc2 <;> simp +decide [JVal.isStr] at hc2
      simp [hc1, hc2, hcl, hop]

lemma createdDesc_trans : ∀ a b c : StoredDoc,
    createdDesc a b → createdDesc b c → createdDesc a c := by
  intro a b c hab hbc
  simp only [createdDesc, decide_eq_true_eq] at *
  omega

lemma createdDesc_total : ∀ a b : StoredDoc, createdDesc a b || createdDesc b a := by
  intro a b
  simp only [createdDesc, Bool.or_eq_true, decide_eq_true_eq]
  omega

lemma listRecent_sorted (store : List StoredDoc) :
    (listRecent store).Pairwise (fun a b => createdDesc a b = true) :=
  List.Pairwise.take (List.sorted_mergeSort createdDesc_trans createdDesc_total store)

lemma listRecent_len (store : List StoredDoc) : (listRecent store).length ≤ 100 := by
  simp only [listRecent, List.length_take]
  exact Nat.min_le_left _ _

lemma lookupD_of_no_key {v : JVal} {k : String} {d : JVal} (h : hasKey v k = false) :
    lookupD v k d = d := by
  cases v with
  | obj fs =>
    simp only [hasKey] at h
    cases hl : fs.lookup k with
    | some w => rw [hl] at h; simp at h
    | none => simp [lookupD, getD, hl]
  | nul => rfl
  | bool b => rfl
  | num n => rfl
  | str s => rfl
  | arr xs => rfl

lemma listRecent_single (d : StoredDoc) : listRecent [d] = [d] := by
  unfold listRecent
  rw [List.mergeSort_of_sorted (by simp)]
  rfl

/-!  Concrete inputs used by counterexamples and witnesses. -/

/-- A fixed stand-in for `datetime.fromisoformat` that fails on every string
(each claim below is independent of the library parser's behavior). -/
def fi0 : String → Option DT := fun _ => none

/-- A fixed receipt instant: 2021-04-01 21:30:00 UTC, naive. -/
def now0 : DT := ⟨2021, 4, 1, 21, 30, 0, false⟩

/-- A pull_request payload with `action = "closed"` and a truthy non-boolean
`merged` value (the string "yes"). -/
def c1Payload : JVal :=
  .obj [("action", .str "closed"),
        ("pull_request", .obj [
            ("merged", .str "yes"),
            ("base", .obj [("ref", .str "refs/heads/main")]),
            ("head", .obj [("ref", .str "refs/heads/feature")]),
            ("merged_by", .obj [("login", .str "carol")])]),
        ("repository", .obj [("full_name", .str "octo/repo")])]

/-- The merge record the normalizer produces for `c1Payload`. -/
def c1Doc : EventDoc :=
  { action := "merge", author := .str "carol", repo := .str "octo/repo",
    from_branch := .str "feature", to_branch := .str "main",
    timestamp := now0, created_at := now0 }


/-- A push payload whose `repository` key is present but null. -/
def c2BadPush : JVal := .obj [("repository", .nul)]

/-- A push payload whose `pusher.name` is present but the empty string. -/
def c7Payload : JVal := .obj [("pusher", .obj [("name", .str "")])]

/-- The record the normalizer produces for `c7Payload`. -/
def c7Doc : EventDoc :=
  { action := "push", author := .str "", repo := .str "unknown-repo",
    from_branch := .nul, to_branch := .str "", timestamp := now0, created_at := now0 }

/-- The record the `push` branch of the webhook stores for an empty payload. -/
def c4Doc : EventDoc :=
  { action := "push", author := .str "unknown-user", repo := .str "unknown-repo",
    from_branch := .nul, to_branch := .str "", timestamp := now0, created_at := now0 }

/-- A stored document whose `timestamp` field holds the (truthy, non-datetime)
string "x". -/
def c8Doc : StoredDoc :=
  { action := .str "push", author := .str "a", to_branch := .nul, from_branch := .nul,
    repo := .nul, timestamp := .j (.str "x"), created_at := now0 }

/-- An `opened` pull_request payload whose `base.ref` is the bare prefix
string `refs/heads/`. -/
def c9Payload : JVal :=
  .obj [("action", .str "opened"),
        ("pull_request", .obj [
            ("base", .obj [("ref", .str "refs/heads/")]),
            ("head", .obj [("ref", .str "refs/heads/feature")]),
            ("user", .obj [("login", .str "bob")])])]

/-- The record the normalizer produces for `c9Payload`. -/
def c9Doc : EventDoc :=
  { action := "pull_request", author := .str "bob", repo := .str "",
    from_branch := .str "feature", to_branch := .str "",
    timestamp := now0, created_at := now0 }

/-!  Claims. -/

/-- C1 (counterexample): the classification is not "merge iff action closed
and merged equals true": on a closed payload whose merged field is the string
"yes" (truthy but not the boolean true) the normalizer still produces a
merge record. -/
theorem C1_counterexample :
    (∃ d, handle_pull_request fi0 now0 c1Payload = .ok (some d) ∧ d.action = "merge") ∧
    mergedOf c1Payload = .str "yes" ∧ mergedOf c1Payload ≠ .bool true := by
  refine ⟨⟨c1Doc, rfl, rfl⟩, rfl, ?_⟩
  intro h
  exact JVal.noConfusion h

/-- C1 (amended): for every well-shaped pull_request payload the normalizer
yields a merge record iff the action equals "closed" and the merged value is
truthy; yields a pull_request record iff the action is "opened" or
"synchronize"; and yields the Ignore outcome (no record) in every remaining
case. -/
theorem C1_classification (fromiso : String → Option DT) (now : DT) (p : JVal)
    (h : prShaped p = true) :
    ((actionOf p = .str "closed" ∧ (mergedOf p).truthy = true) ↔
       ∃ d, handle_pull_request fromiso now p = .ok (some d) ∧ d.action = "merge") ∧
    ((actionOf p = .str "opened" ∨ actionOf p = .str "synchronize") ↔
       ∃ d, handle_pull_request fromiso now p = .ok (some d) ∧ d.action = "pull_request") ∧
    ((¬(actionOf p = .str "closed" ∧ (mergedOf p).truthy = true) ∧
      ¬(actionOf p = .str "opened" ∨ actionOf p = .str "synchronize")) ↔
       handle_pull_request fromiso now p = .ok none) :=
  classified h

/-- Witness for C1_classification at the concrete payload `c1Payload`. -/
theorem C1_classification_witness :
    ∃ d, handle_pull_request fi0 now0 c1Payload = .ok (some d) ∧ d.action = "merge" :=
  (C1_classification fi0 now0 c1Payload rfl).1.mp ⟨rfl, rfl⟩

/-- C2 (counterexample): normalization can raise: a push payload whose
`repository` key is present but null makes `handle_push` raise
AttributeError (`None.get`), instead of degrading to a default. -/
theorem C2_counterexample : handle_push now0 c2BadPush = .error .attrError := rfl

/-- C2 (amended): normalization completes without raising — returning a
record (push) or a record-or-Ignore outcome (pull_request) — for every
payload whose consulted fields, when present and truthy, have the shapes the
handlers dereference (dicts where `.get` is called, strings where string
methods are called); missing fields degrade to their defaults. -/
theorem C2_no_raise (fromiso : String → Option DT) (now : DT) (p : JVal) :
    (pushShaped p = true → ∃ d, handle_push now p = .ok d) ∧
    (prShaped p = true → ∃ r, handle_pull_request fromiso now p = .ok r) :=
  ⟨fun h => ⟨_, handle_push_shaped h⟩, fun h => ⟨_, handle_pr_shaped h⟩⟩

/-- Witness for C2_no_raise at the empty payload. -/
theorem C2_no_raise_witness :
    (pushShaped (.obj []) = true ∧ ∃ d, handle_push now0 (.obj []) = .ok d) ∧
    (prShaped (.obj []) = true ∧ ∃ r, handle_pull_request fi0 now0 (.obj []) = .ok r) :=
  ⟨⟨rfl, (C2_no_raise fi0 now0 (.obj [])).1 rfl⟩,
   ⟨rfl, (C2_no_raise fi0 now0 (.obj [])).2 rfl⟩⟩

/-- C3 (counterexample): the resolver does not remove exactly one leading
prefix: Python `str.replace` removes every occurrence, so a ref that starts
with `refs/heads/` twice loses both copies ("main" instead of
"refs/heads/main"). -/
theorem C3_counterexample :
    ref_to_branch (.str "refs/heads/refs/heads/main") = .ok (.str "main") ∧
    ("main" : String) ≠ "refs/heads/main" := ⟨rfl, by decide⟩

/-- C3 (amended): for a ref starting with `refs/heads/` whose remainder
contains no further occurrence of the prefix, the resolver strips exactly
that one leading prefix (in general it removes every occurrence); a
non-empty ref not starting with the prefix is returned unchanged; a null or
empty ref resolves to the literal "unknown". -/
theorem C3_resolve :
    (∀ t : String, occursIn "refs/heads/".data t.data = false →
        ref_to_branch (.str ("refs/heads/" ++ t)) = .ok (.str t)) ∧
    (∀ s : String, s ≠ "" → pyStarts s "refs/heads/" = false →
        ref_to_branch (.str s) = .ok (.str s)) ∧
    ref_to_branch .nul = .ok (.str "unknown") ∧
    ref_to_branch (.str "") = .ok (.str "unknown") :=
  ⟨fun _ h => resolve_strips_single_occurrence h,
   fun _ h1 h2 => resolve_keeps_other h1 h2, rfl, rfl⟩

/-- Witness for C3_resolve at the refs "refs/heads/main" and "dev". -/
theorem C3_resolve_witness :
    ref_to_branch (.str ("refs/heads/" ++ "main")) = .ok (.str "main") ∧
    ref_to_branch (.str "dev") = .ok (.str "dev") ∧
    ref_to_branch .nul = .ok (.str "unknown") :=
  ⟨C3_resolve.1 "main" (by decide), C3_resolve.2.1 "dev" (by decide) rfl,
   C3_resolve.2.2.1⟩

/-- C4 (counterexample): not every stored record has an action from the
closed set: the `/debug-insert` route stores a record whose action is
"debug". -/
theorem C4_counterexample :
    (debug_insert now0).action = .str "debug" ∧
    (JVal.str "debug") ≠ .str "push" ∧ (JVal.str "debug") ≠ .str "pull_request" ∧
    (JVal.str "debug") ≠ .str "merge" := by
  refine ⟨rfl, ?_, ?_, ?_⟩ <;> (intro h; injection h with h'; exact absurd h' (by decide))

/-- C4 (amended): every record the webhook route stores has its action in
the closed set `{"push", "pull_request", "merge"}`; the debug route, however,
inserts the action "debug". -/
theorem C4_webhook_actions (fromiso : String → Option DT) (now : DT) (ev : String)
    (body : Option JVal) (d : EventDoc) (h : webhook fromiso now ev body = .ok (.stored d)) :
    d.action = "push" ∨ d.action = "pull_request" ∨ d.action = "merge" := by
  rcases webhook_action_of_stored h with h1 | h1 | h1
  · exact Or.inl h1
  · exact Or.inr (Or.inr h1)
  · exact Or.inr (Or.inl h1)

/-- Witness for C4_webhook_actions on a push request with an empty body. -/
theorem C4_webhook_actions_witness :
    c4Doc.action = "push" ∨ c4Doc.action = "pull_request" ∨ c4Doc.action = "merge" :=
  C4_webhook_actions fi0 now0 "push" (some (.obj [])) c4Doc rfl

/-- C5 (code bug): at the documented example instant (1 April 2021, 21:30
UTC) the formatter prints "01st April 2021 - 9:30 PM UTC" — the `%d`
directive zero-pads the day — and not the "1st April 2021 - 9:30 PM UTC" the
docstring and spec promise. -/
theorem C5_format_day_padded :
    format_dt now0 = "01st April 2021 - 9:30 PM UTC" ∧
    "01st April 2021 - 9:30 PM UTC" ≠ "1st April 2021 - 9:30 PM UTC" :=
  ⟨rfl, by decide⟩

/-- C6: for every day of month 1..31 the ordinal suffix follows the rule:
days 11-20 always get "th"; otherwise last digit 1 gets "st", 2 "nd",
3 "rd", anything else "th". -/
theorem C6_ordinal_rule : ∀ day : Nat, day ≤ 31 → 1 ≤ day →
    ordinal_suffix day = (if 11 ≤ day ∧ day ≤ 20 then "th"
      else match day % 10 with
        | 1 => "st" | 2 => "nd" | 3 => "rd" | _ => "th") := by decide

/-- Witness for C6_ordinal_rule at day 23. -/
theorem C6_ordinal_rule_witness :
    ordinal_suffix 23 = (if 11 ≤ 23 ∧ 23 ≤ 20 then "th"
      else match 23 % 10 with
        | 1 => "st" | 2 => "nd" | 3 => "rd" | _ => "th") :=
  C6_ordinal_rule 23 (by decide) (by decide)

/-- C7 (counterexample): a push author can be empty: `dict.get` defaults
only when the key is absent, so a present-but-empty `pusher.name` passes
through as the record's author. -/
theorem C7_counterexample :
    handle_push now0 c7Payload = .ok c7Doc ∧ c7Doc.author = .str "" ∧
    (JVal.str "").truthy = false := ⟨rfl, rfl, rfl⟩

/-- C7 (amended): every pull_request/merge record's author is truthy (the
chain merged_by.login / user.login, then sender.login, then the literal
"Unknown", first truthy wins); a push record's author falls back to
"unknown-user" only when the `pusher.name` key is absent — a present empty
value is passed through unchanged. -/
theorem C7_author (fromiso : String → Option DT) (now : DT) (p q : JVal)
    (hpr : prShaped p = true) (hq : pushShaped q = true) :
    (∀ d, handle_pull_request fromiso now p = .ok (some d) → d.author.truthy = true) ∧
    (∃ d, handle_push now q = .ok d ∧
      (hasKey (lookupD q "pusher" (.obj [])) "name" = false →
        d.author = .str "unknown-user")) := by
  constructor
  · intro d hd
    rw [handle_pr_shaped hpr] at hd
    unfold prResult at hd
    split at hd
    · simp only [Except.ok.injEq, Option.some.injEq] at hd
      rw [← hd]
      exact authorOf_truthy
    · split at hd
      · simp only [Except.ok.injEq, Option.some.injEq] at hd
        rw [← hd]
        exact authorOf_truthy
      · simp at hd
  · refine ⟨_, handle_push_shaped hq, ?_⟩
    intro hk
    unfold pushResult
    simp only [lookupD_of_no_key hk]

/-- Witness for C7_author: the merge record for `c1Payload` has the truthy
author "carol", and a push with no pusher field gets author "unknown-user". -/
theorem C7_author_witness :
    (JVal.str "carol").truthy = true ∧
    (∃ d, handle_push now0 (.obj []) = .ok d ∧
      (hasKey (lookupD (.obj []) "pusher" (.obj [])) "name" = false →
        d.author = .str "unknown-user")) :=
  ⟨(C7_author fi0 now0 c1Payload (.obj []) rfl rfl).1 c1Doc rfl,
   (C7_author fi0 now0 c1Payload (.obj []) rfl rfl).2⟩

/-- C8 (counterexample): the formatted timestamp of a stored record is not
the empty string for every non-instant: a truthy non-datetime value (the
string "x") is rendered via Python `str`, yielding "x". -/
theorem C8_counterexample :
    (get_events now0 [c8Doc]).map (fun o => o.timestamp_formatted) = ["x"] ∧
    ("x" : String) ≠ "" := by
  constructor
  · rw [get_events, listRecent_single]
    rfl
  · decide

/-- C8 (amended): the query endpoint returns at most 100 records, ordered
newest-first by created_at, and each element's formatted timestamp equals
the formatter applied to its stored timestamp when that is an instant, the
empty string when it is absent or falsy, and Python `str` of the value when
it is truthy but not an instant. -/
theorem C8_query (now : DT) (store : List StoredDoc) :
    (get_events now store).length ≤ 100 ∧
    (listRecent store).Pairwise (fun a b => createdDesc a b = true) ∧
    ∀ d ∈ listRecent store, (reshape now d).timestamp_formatted =
      (match d.timestamp with
       | .dt t => format_dt t
       | .j v => if v.truthy = true then pyStr v else "") := by
  refine ⟨?_, listRecent_sorted store, ?_⟩
  · rw [get_events, List.length_map]
    exact listRecent_len store
  · intro d _
    cases hts : d.timestamp with
    | dt t => simp [reshape, hts, format_timestamp]
    | j v => cases htv : v.truthy <;> simp [reshape, hts, htv]

/-- Witness for C8_query at the one-record store `[c8Doc]`. -/
theorem C8_query_witness :
    (reshape now0 c8Doc).timestamp_formatted =
      (match c8Doc.timestamp with
       | .dt t => format_dt t
       | .j v => if v.truthy = true then pyStr v else "") :=
  (C8_query now0 [c8Doc]).2.2 c8Doc (by rw [listRecent_single]; exact List.mem_singleton_self c8Doc)

/-- C9 (counterexample): a produced record's branch fields are not always
non-empty: base.ref `"refs/heads/"` resolves to the empty string (the prefix
is stripped and nothing remains), not to "unknown". -/
theorem C9_counterexample :
    handle_pull_request fi0 now0 c9Payload = .ok (some c9Doc) ∧
    c9Doc.to_branch = .str "" ∧ (JVal.str "").truthy = false := ⟨rfl, rfl, rfl⟩

/-- C9 (amended): both branch fields of every record the pull_request
normalizer produces are strings (never null); each is the literal "unknown"
when the corresponding ref is missing or falsy, but may be the empty string
when a truthy ref reduces to nothing after prefix removal. -/
theorem C9_branch_fields (fromiso : String → Option DT) (now : DT) (p : JVal)
    (h : prShaped p = true) :
    ∀ d, handle_pull_request fromiso now p = .ok (some d) →
      (∃ s, d.to_branch = .str s) ∧ (∃ s, d.from_branch = .str s) ∧
      ((baseRefOf p).truthy = false → d.to_branch = .str "unknown") ∧
      ((headRefOf p).truthy = false → d.from_branch = .str "unknown") := by
  intro d hd
  rw [handle_pr_shaped h] at hd
  unfold prResult at hd
  split at hd
  · simp only [Except.ok.injEq, Option.some.injEq] at hd
    rw [← hd]
    exact ⟨branchOf_is_str, branchOf_is_str,
      fun hf => by simp [branchOf_falsy hf],
      fun hf => by simp [branchOf_falsy hf]⟩
  · split at hd
    · simp only [Except.ok.injEq, Option.some.injEq] at hd
      rw [← hd]
      exact ⟨branchOf_is_str, branchOf_is_str,
        fun hf => by simp [branchOf_falsy hf],
        fun hf => by simp [branchOf_falsy hf]⟩
    · simp at hd

/-- Witness for C9_branch_fields at `c9Payload`. -/
theorem C9_branch_fields_witness :
    (∃ s, c9Doc.to_branch = .str s) ∧ (∃ s, c9Doc.from_branch = .str s) ∧
    ((baseRefOf c9Payload).truthy = false → c9Doc.to_branch = .str "unknown") ∧
    ((headRefOf c9Payload).truthy = false → c9Doc.from_branch = .str "unknown") :=
  C9_branch_fields fi0 now0 c9Payload rfl c9Doc rfl

/-- C10: on a well-shaped closed pull_request payload the merge
classification is taken exactly when the merged value is truthy (any truthy
value, not only the boolean true), and an absent merged key defaults to
False, so the event is ignored. -/
theorem C10_merged_truthiness (fromiso : String → Option DT) (now : DT) (p : JVal)
    (h : prShaped p = true) (ha : actionOf p = .str "closed") :
    ((mergedOf p).truthy = true ↔
       ∃ d, handle_pull_request fromiso now p = .ok (some d) ∧ d.action = "merge") ∧
    (hasKey (prOf p) "merged" = false → handle_pull_request fromiso now p = .ok none) := by
  have hcl := @classified fromiso now p h
  constructor
  · constructor
    · intro hm
      exact hcl.1.mp ⟨ha, hm⟩
    · intro hex
      exact (hcl.1.mpr hex).2
  · intro hk
    apply hcl.2.2.mp
    have hm : (mergedOf p).truthy = false := by
      unfold mergedOf
      rw [lookupD_of_no_key hk]
      rfl
    refine ⟨fun hx => ?_, fun hx => ?_⟩
    · rw [hx.2] at hm
      exact absurd hm (by decide)
    · rcases hx with hh | hh <;> rw [ha] at hh <;>
        (injection hh with hs; exact absurd hs (by decide))

/-- Witness for C10_merged_truthiness at `c1Payload`. -/
theorem C10_merged_truthiness_witness :
    ((mergedOf c1Payload).truthy = true ↔
       ∃ d, handle_pull_request fi0 now0 c1Payload = .ok (some d) ∧ d.action = "merge") ∧
    (hasKey (prOf c1Payload) "merged" = false →
       handle_pull_request fi0 now0 c1Payload = .ok none) :=
  C10_merged_truthiness fi0 now0 c1Payload rfl rfl
